import Mathlib

/-!
Verification development for the `low-profile` HTTP/1.1 engine
(`src/router.rs`): a shallow embedding of the single-connection serve
loop, the wire parser, and the typestate router, together with theorems
about the claims of the spec.

Bytes are modelled as `Nat` (always < 256 on real inputs); byte strings
as `List Nat`.  The transport reader is modelled as a list of chunks:
each `read` call delivers the next chunk truncated to the free capacity
of the destination slice, keeping undelivered bytes in the transport;
an empty chunk (or an exhausted list) models a read returning 0 bytes.
-/

namespace LowProfile

abbrev Byte := Nat

def strBytes (s : String) : List Byte := s.toList.map Char.toNat

/-! ## Wire parser (model of the `httparse` crate used at router.rs:160)

`httparse::Request::parse` over a byte slice: skip leading empty lines,
parse `METHOD SP request-target SP HTTP-version CRLF`, then header lines
`name: value CRLF` until a blank line.  An invalid byte fails with the
corresponding error; running out of bytes mid-head is "incomplete"
(`httparse::Status::Partial`), encoded below as `.ok none`. -/

inductive HErr where
  | token
  | newLine
  | version
  | headerName
  | headerValue
  | tooManyHeaders
  deriving DecidableEq

abbrev Hdr := List Byte × List Byte

/-- Result of one parsing step: an error, `none` for "need more bytes"
(the Partial status of httparse), or the parsed value plus the unconsumed rest. -/
abbrev PR (α : Type) := Except HErr (Option (α × List Byte))

def PR.bind {α β : Type} (x : PR α) (f : α → List Byte → PR β) : PR β :=
  match x with
  | .error e => .error e
  | .ok none => .ok none
  | .ok (some (a, rest)) => f a rest

/-- httparse `is_token`: printable ASCII except DEL. -/
def is_token (b : Byte) : Bool := decide (31 < b ∧ b < 127)

/-- httparse URI byte: printable ASCII except SP and DEL. -/
def is_uri (b : Byte) : Bool := decide (32 < b ∧ b < 127)

def is_digit (b : Byte) : Bool := decide (48 ≤ b ∧ b ≤ 57)

/-- httparse header-name byte: RFC 7230 token characters. -/
def is_hname (b : Byte) : Bool :=
  is_digit b || decide (65 ≤ b ∧ b ≤ 90) || decide (97 ≤ b ∧ b ≤ 122) ||
    ([33, 35, 36, 37, 38, 39, 42, 43, 45, 46, 94, 95, 96, 124, 126] : List Byte).contains b

/-- httparse header-value byte: HT or any byte ≥ 0x20 except DEL. -/
def is_hval (b : Byte) : Bool := b == 9 || decide (31 < b ∧ b ≠ 127 ∧ b ≤ 255)

/-- Optional whitespace (SP / HT). -/
def is_ows (b : Byte) : Bool := b == 32 || b == 9

/-- httparse skips any number of empty lines before the request line. -/
def skip_empty_lines : List Byte → PR Unit
  | [] => .ok none
  | 13 :: rest =>
    match rest with
    | [] => .ok none
    | 10 :: r2 => skip_empty_lines r2
    | _ => .error .newLine
  | 10 :: rest => skip_empty_lines rest
  | input => .ok (some ((), input))

/-- Byte scanned inside a token: satisfies `pred` and is not the SP
terminator (httparse checks the terminator before the token predicate). -/
def tok_byte (pred : Byte → Bool) (b : Byte) : Bool := pred b && b != 32

/-- Parse a nonempty token (per `pred`) terminated by a single SP. -/
def parse_token (pred : Byte → Bool) (input : List Byte) : PR (List Byte) :=
  match input.dropWhile (tok_byte pred) with
  | [] => .ok none
  | b :: rest =>
    if b = 32 then
      if input.takeWhile (tok_byte pred) = [] then .error .token
      else .ok (some (input.takeWhile (tok_byte pred), rest))
    else .error .token

/-- Match an exact byte sequence (used for the HTTP version literal). -/
def expect_bytes (pat : List Byte) (input : List Byte) : PR Unit :=
  match pat, input with
  | [], rest => .ok (some ((), rest))
  | _ :: _, [] => .ok none
  | p :: ps, b :: rest => if b = p then expect_bytes ps rest else .error .version

/-- Parse `HTTP/1.<digit>`. -/
def parse_version (input : List Byte) : PR Unit :=
  (expect_bytes (strBytes "HTTP/1.") input).bind fun _ r =>
    match r with
    | [] => .ok none
    | d :: rest => if is_digit d then .ok (some ((), rest)) else .error .version

/-- Parse a line terminator: CRLF or bare LF. -/
def parse_newline : List Byte → PR Unit
  | [] => .ok none
  | 13 :: rest =>
    match rest with
    | [] => .ok none
    | 10 :: r2 => .ok (some ((), r2))
    | _ => .error .newLine
  | 10 :: rest => .ok (some ((), rest))
  | _ => .error .newLine

/-- Drop trailing whitespace of a header value (httparse trims it). -/
def trim_end (l : List Byte) : List Byte := (l.reverse.dropWhile is_ows).reverse

/-- Parse one `name: value CRLF` header line. -/
def parse_header_line (input : List Byte) : PR Hdr :=
  match input.dropWhile is_hname with
  | [] => .ok none
  | b :: rest =>
    if b = 58 then
      if input.takeWhile is_hname = [] then .error .headerName
      else
        match (rest.dropWhile is_ows).dropWhile is_hval with
        | [] => .ok none
        | c :: _ =>
          if c = 13 ∨ c = 10 then
            (parse_newline ((rest.dropWhile is_ows).dropWhile is_hval)).bind fun _ r =>
              .ok (some ((input.takeWhile is_hname,
                          trim_end ((rest.dropWhile is_ows).takeWhile is_hval)), r))
          else .error .headerValue
    else .error .headerName

/-- Parse header lines until the blank line, with at most `slots` header
slots remaining; one more header than slots is `TooManyHeaders`
(httparse checks for the end-of-headers line before claiming a slot). -/
def parse_headers (slots : Nat) (input : List Byte) : PR (List Hdr) :=
  match input with
  | [] => .ok none
  | 13 :: [] => .ok none
  | 13 :: 10 :: r => .ok (some ([], r))
  | 13 :: _ :: _ => .error .newLine
  | 10 :: rest => .ok (some ([], rest))
  | input =>
    match slots with
    | 0 => .error .tooManyHeaders
    | slots + 1 =>
      (parse_header_line input).bind fun h rest =>
        (parse_headers slots rest).bind fun hs rest2 => .ok (some (h :: hs, rest2))

/-- Output of a completed head parse: method token, raw path, header
name/value pairs, and the byte length of the head (= body start). -/
structure Head where
  method : List Byte
  path : List Byte
  headers : List Hdr
  length : Nat
  deriving DecidableEq

/-- Model of `httparse::Request::parse` over a byte slice: `.error e`
for a malformed head, `.ok none` for an incomplete head, and
`.ok (some head)` on completion. -/
def parse_request (max_headers : Nat) (input : List Byte) : Except HErr (Option Head) :=
  match (skip_empty_lines input).bind fun _ r1 =>
        (parse_token is_token r1).bind fun m r2 =>
        (parse_token is_uri r2).bind fun p r3 =>
        (parse_version r3).bind fun _ r4 =>
        (parse_newline r4).bind fun _ r5 =>
        (parse_headers max_headers r5).bind fun hs r6 =>
        (.ok (some ((m, p, hs), r6))) with
  | .error e => .error e
  | .ok none => .ok none
  | .ok (some ((m, p, hs), rest)) => .ok (some ⟨m, p, hs, input.length - rest.length⟩)

/-! ## Transport reader model

A reader is a list of pending chunks.  `read_chunk cap reader` models
one `reader.read(&mut buf[pos..])` call with `cap` free bytes: it
delivers the next chunk truncated to `cap`, keeping any undelivered
remainder in the transport; an empty chunk or an exhausted list models
a read returning 0 ("transport closed" / nothing fits). -/

def read_chunk (cap : Nat) : List (List Byte) → List Byte × List (List Byte)
  | [] => ([], [])
  | c :: rest => if c.drop cap = [] then (c.take cap, rest) else (c.take cap, c.drop cap :: rest)

/-- Total pending bytes plus chunk count: a strict upper bound on the
number of loop iterations that deliver at least one byte. -/
def reader_size (reader : List (List Byte)) : Nat :=
  (reader.map List.length).sum + reader.length

/-! ## The head-reading loop of `Router::serve` (router.rs:143-176)

`buf` is the fixed 2048-byte array; `received` the bytes read so far
(`buf[..pos]`).  Crucially, router.rs:160 parses the WHOLE buffer
(`&buf`), i.e. the received bytes followed by the remaining
zero-initialised suffix — modelled by `pad_buf`. -/

def BUF_SIZE : Nat := 2048

def MAX_HEADERS : Nat := 100

/-- The full 2048-byte buffer contents: received bytes then the
zero-initialised unfilled suffix (this is what router.rs:160 parses). -/
def pad_buf (received : List Byte) : List Byte :=
  received ++ List.replicate (BUF_SIZE - received.length) 0

inductive LoopRes where
  | closed (reader : List (List Byte))
  | parseError (e : HErr) (reader : List (List Byte))
  | head (hd : Head) (received : List Byte) (reader : List (List Byte))
  deriving DecidableEq

/-- One-step-per-fuel-unit unfolding of the serve loop.  `fuel` is only
a structural-recursion device: the loop is always entered with
`fuel = reader_size reader`, and every continuing iteration consumes at
least one pending byte (plus possibly a chunk boundary), so fuel can
reach 0 only with an exhausted reader — where the loop result is
`.closed []` exactly as a 0-byte read produces. -/
def serve_loop_go : Nat → List Byte → List (List Byte) → LoopRes
  | 0, received, reader => .closed (read_chunk (BUF_SIZE - received.length) reader).2
  | fuel + 1, received, reader =>
    let r := read_chunk (BUF_SIZE - received.length) reader
    if r.1 = [] then .closed r.2
    else
      match parse_request MAX_HEADERS (pad_buf (received ++ r.1)) with
      | .error e => .parseError e r.2
      | .ok (some hd) => .head hd (received ++ r.1) r.2
      | .ok none => serve_loop_go fuel (received ++ r.1) r.2

/-- The `loop` at router.rs:144-176: read, return `Ok(())` on a 0-byte
read, otherwise parse the whole buffer and either fail, complete, or
keep reading. -/
def serve_loop (received : List Byte) (reader : List (List Byte)) : LoopRes :=
  serve_loop_go (reader_size reader) received reader

/-! ## Path-and-query splitter, method, header view, content length -/

structure PathAndQuery where
  path : List Byte
  query : Option (List Byte)
  deriving DecidableEq

/-- Modelled from the spec: `PathAndQuery::parse` (src/parse.rs is not
in the sources).  Split the raw request-target on the first `?` (query
kept even when empty); fail ("invalid URL") when the path portion is
empty or contains forbidden control bytes. -/
def PathAndQuery.parse (raw : List Byte) : Option PathAndQuery :=
  let path := raw.takeWhile (fun b => b != 63)
  let query : Option (List Byte) :=
    match raw.dropWhile (fun b => b != 63) with
    | [] => none
    | _ :: rest => some rest
  if path = [] ∨ path.any (fun b => decide (b < 32) || b == 127) then none
  else some ⟨path, query⟩

inductive Method where
  | GET | POST | PUT | DELETE | HEAD | OPTIONS | CONNECT | PATCH | TRACE
  deriving DecidableEq

/-- Modelled from the spec: `Method::new` (the method enumeration is
out of scope beyond its role as an opaque token); the nine method
tokens with per-method builders are accepted, anything else is an
invalid-method protocol error (`none`). -/
def Method.new (m : List Byte) : Option Method :=
  if m = strBytes "GET" then some .GET
  else if m = strBytes "POST" then some .POST
  else if m = strBytes "PUT" then some .PUT
  else if m = strBytes "DELETE" then some .DELETE
  else if m = strBytes "HEAD" then some .HEAD
  else if m = strBytes "OPTIONS" then some .OPTIONS
  else if m = strBytes "CONNECT" then some .CONNECT
  else if m = strBytes "PATCH" then some .PATCH
  else if m = strBytes "TRACE" then some .TRACE
  else none

def to_lower (b : Byte) : Byte := if 65 ≤ b ∧ b ≤ 90 then b + 32 else b

/-- ASCII case-insensitive equality of header names. -/
def eq_ci (a b : List Byte) : Bool := a.map to_lower == b.map to_lower

/-- Modelled from the spec: `Headers::get_first` (src/request.rs is not
in the sources) — case-insensitive lookup returning the value of the
first matching header in wire order. -/
def get_first (headers : List Hdr) (name : List Byte) : Option (List Byte) :=
  match headers with
  | [] => none
  | (n, v) :: rest => if eq_ci n name then some v else get_first rest name

/-- Model of Rust `str::parse::<usize>`: an optional leading `+`, then
one or more ASCII digits, value within the (64-bit) usize range;
anything else fails. -/
def parse_usize (v : List Byte) : Option Nat :=
  let core := match v with
    | 43 :: rest => rest
    | _ => v
  if core ≠ [] ∧ core.all is_digit ∧ core.foldl (fun acc b => acc * 10 + (b - 48)) 0 < 2 ^ 64
  then some (core.foldl (fun acc b => acc * 10 + (b - 48)) 0)
  else none

/-- router.rs:190-194: first Content-Length header, parsed as usize,
defaulting to 0 when absent or unparsable. -/
def content_length_of (headers : List Hdr) : Nat :=
  ((get_first headers (strBytes "Content-Length")).bind parse_usize).getD 0

/-! ## Route tree and router builder (router.rs:21-123; matching is
modelled from the spec since src/route.rs is not in the sources) -/

structure Response where
  status : Nat
  body : List Byte
  deriving DecidableEq

/-- The request handed to the route chain: `Parts` (method, path,
query, header view) plus the `Body` data — content length, the
already-buffered tail `buf[body_start..pos]`, and the rest of the
transport reader. -/
structure RequestData where
  method : Method
  path : List Byte
  query : Option (List Byte)
  headers : List Hdr
  content_length : Nat
  body_buffered : List Byte
  body_reader : List (List Byte)
  deriving DecidableEq

/-- Route nodes: the `NotFound` terminal, a literal-path guard, a
method-guarded handler leaf, and the `Fallback` chain node. -/
inductive Route (S : Type) where
  | notFound
  | path (p : List Byte) (inner : Route S)
  | onMethod (m : Method) (handler : S → RequestData → Response)
  | fallback (primary alternate : Route S)

/-- Modelled from the spec: the `NotFound` terminal yields a fixed
"not found" response. -/
def not_found_response : Response := ⟨404, []⟩

/-- Modelled from the spec: `Route::match_request` (src/route.rs is not
in the sources).  A `path` node matches when the request path equals
its literal; `onMethod` matches on the method and invokes its handler;
`fallback` tries its primary route and only on no-match its alternate;
`notFound` matches unconditionally. -/
def match_request {S : Type} : Route S → RequestData → S → Option Response
  | .notFound, _, _ => some not_found_response
  | .path p inner, req, s => if req.path = p then match_request inner req s else none
  | .onMethod m h, req, s => if req.method = m then some (h s req) else none
  | .fallback primary alternate, req, s =>
    match match_request primary req s with
    | some resp => some resp
    | none => match_request alternate req s

/-- The Router: application state plus the route chain.  The Rust
typestate markers (`HasRoute`, `HasAnyState`) are compile-time only and
have no runtime content. -/
structure Router (S : Type) where
  state : S
  route : Route S

/-- `Router::new` (router.rs:27-35): the sole route is `NotFound`. -/
def Router.new : Router Unit := ⟨(), .notFound⟩

/-- `Router::route` (router.rs:105-123): wrap the added route in a
`Path` guard and chain it in front of the previous route via
`Fallback`. -/
def Router.add_route {S : Type} (r : Router S) (p : List Byte) (t : Route S) : Router S :=
  ⟨r.state, .fallback (.path p t) r.route⟩

/-- Per-method convenience builders (the `impl_method!` expansion at
router.rs:75-103): `route(path, route::method(handler))`. -/
def Router.get {S : Type} (r : Router S) (p : List Byte) (h : S → RequestData → Response) :
    Router S := r.add_route p (.onMethod .GET h)

def Router.post {S : Type} (r : Router S) (p : List Byte) (h : S → RequestData → Response) :
    Router S := r.add_route p (.onMethod .POST h)

def Router.put {S : Type} (r : Router S) (p : List Byte) (h : S → RequestData → Response) :
    Router S := r.add_route p (.onMethod .PUT h)

def Router.delete {S : Type} (r : Router S) (p : List Byte) (h : S → RequestData → Response) :
    Router S := r.add_route p (.onMethod .DELETE h)

def Router.head {S : Type} (r : Router S) (p : List Byte) (h : S → RequestData → Response) :
    Router S := r.add_route p (.onMethod .HEAD h)

def Router.options {S : Type} (r : Router S) (p : List Byte) (h : S → RequestData → Response) :
    Router S := r.add_route p (.onMethod .OPTIONS h)

def Router.connect {S : Type} (r : Router S) (p : List Byte) (h : S → RequestData → Response) :
    Router S := r.add_route p (.onMethod .CONNECT h)

def Router.patch {S : Type} (r : Router S) (p : List Byte) (h : S → RequestData → Response) :
    Router S := r.add_route p (.onMethod .PATCH h)

def Router.trace {S : Type} (r : Router S) (p : List Byte) (h : S → RequestData → Response) :
    Router S := r.add_route p (.onMethod .TRACE h)

/-- `Router::with_state` (router.rs:43-73): replaces the state and
keeps the route chain unchanged.  (In Rust the state TYPE may also
change, with the same route value reused; the chain-preservation is
what matters here.) -/
def Router.with_state {S : Type} (r : Router S) (s2 : S) : Router S := ⟨s2, r.route⟩

/-! ## The serve pipeline (router.rs:128-230) -/

inductive ProtocolError where
  | parserError (e : HErr)
  | invalidUrl
  | invalidMethod
  deriving DecidableEq

/-- The observable result of `serve`.  Transport and body-producer
errors cannot occur in this model (the reader/writer are infallible
lists); `panicked` models the `unwrap` at router.rs:204 failing. -/
inductive SResult where
  | ok
  | protocolError (e : ProtocolError)
  | panicked
  deriving DecidableEq

/-- Everything `serve` produces: its return value, the bytes written to
the transport writer, and (when reached) the dispatched response and
the request handed to the route chain. -/
structure Outcome where
  result : SResult
  written : List Byte
  response : Option Response
  request : Option RequestData
  deriving DecidableEq

/-- Bytes of the formatted status-line write
(router.rs:208). -/
def status_line (status : Nat) : List Byte :=
  strBytes "HTTP/1.1 " ++ strBytes (Nat.repr status) ++ [13, 10]

/-- The response-body write loop (router.rs:217-227), reading at most
1024 bytes per iteration until a 0-length read.  Fuel = list length,
which bounds the iteration count. -/
def write_body_go : Nat → List Byte → List Byte
  | 0, _ => []
  | fuel + 1, body =>
    if body = [] then [] else body.take 1024 ++ write_body_go fuel (body.drop 1024)

def write_body (body : List Byte) : List Byte := write_body_go body.length body

/-- `Router::serve` (router.rs:128-230) generalised over the bytes
already received (`serve` proper starts with `pos = 0`): run the head
loop, split path and query, parse the method, compute the content
length, build the request, dispatch it through the route chain, then
write the status line, the blank line and the response body. -/
def serve_from {S : Type} (router : Router S) (received : List Byte)
    (reader : List (List Byte)) : Outcome :=
  match serve_loop received reader with
  | .closed _ => ⟨.ok, [], none, none⟩
  | .parseError e _ => ⟨.protocolError (.parserError e), [], none, none⟩
  | .head hd received2 reader2 =>
    match PathAndQuery.parse hd.path with
    | none => ⟨.protocolError .invalidUrl, [], none, none⟩
    | some paq =>
      match Method.new hd.method with
      | none => ⟨.protocolError .invalidMethod, [], none, none⟩
      | some m =>
        let req : RequestData :=
          ⟨m, paq.path, paq.query, hd.headers, content_length_of hd.headers,
            received2.drop hd.length, reader2⟩
        match match_request router.route req router.state with
        | none => ⟨.panicked, [], none, some req⟩
        | some resp =>
          ⟨.ok, status_line resp.status ++ [13, 10] ++ write_body resp.body,
            some resp, some req⟩

def Router.serve {S : Type} (router : Router S) (reader : List (List Byte)) : Outcome :=
  serve_from router [] reader

/-! ## Builder-reachable route chains (claim C1)

Every Router reachable from `Router::new` through `route`, the nine
per-method builders and `with_state` has a route chain of the shape
captured by `BuiltRoute`: a right-nested `Fallback` spine ending in the
`NotFound` terminal. -/

inductive BuiltRoute {S : Type} : Route S → Prop
  | new : BuiltRoute .notFound
  | add (p : List Byte) (t : Route S) {r : Route S} :
      BuiltRoute r → BuiltRoute (.fallback (.path p t) r)

def c1_route : Route Unit :=
  (Router.new.get (strBytes "/a") (fun _ _ => ⟨200, strBytes "ok"⟩)).route

def c1_req : RequestData := ⟨.POST, strBytes "/nope", none, [], 0, [], []⟩

def c4_h1 : Unit → RequestData → Response := fun _ _ => ⟨201, []⟩

def c4_h2 : Unit → RequestData → Response := fun _ _ => ⟨202, []⟩

def c4_req : RequestData := ⟨.GET, strBytes "/a", none, [], 0, [], []⟩

def c8_bytes : List Byte := strBytes "GET / HTTP/1.1\r\nContent-Length: 5\r\n\r\n"

def c8_hdr : Hdr := (strBytes "Content-Length", strBytes "5")

def c8_req : RequestData := ⟨.GET, strBytes "/", none, [c8_hdr], 5, [], []⟩

def valid_head_bytes : List Byte := strBytes "GET / HTTP/1.1\r\n\r\n"

def oversized_head_bytes : List Byte := strBytes "GET /" ++ List.replicate 2043 97

/-! ## Claim C6: header-count overflow -/

def c6_header_line : List Byte := strBytes "A: b\r\n"

def repeat_header : Nat → List Byte
  | 0 => []
  | n + 1 => c6_header_line ++ repeat_header n

def c6_request_bytes (n : Nat) : List Byte :=
  strBytes "GET / HTTP/1.1\r\n" ++ repeat_header n ++ [13, 10]

/-- A 30-byte header line (25-byte name), used to build a >100-header
request whose head overflows the 2048-byte buffer. -/
def c6_big_header_line : List Byte := strBytes "AAAAAAAAAAAAAAAAAAAAAAAAA: b\r\n"

def big_repeat : Nat → List Byte
  | 0 => []
  | n + 1 => c6_big_header_line ++ big_repeat n

/-- A request with 101 thirty-byte headers: its head is 3048 bytes, so
only 67 full header lines ever fit in the buffer. -/
def c6_big_request : List Byte :=
  strBytes "GET / HTTP/1.1\r\n" ++ big_repeat 101 ++ [13, 10]

/-- The 22 bytes of the 68th big header line that still fit in the
buffer: a bare header-name fragment, on which the parse is incomplete. -/
def c6_partial_tail : List Byte := strBytes "AAAAAAAAAAAAAAAAAAAAAA"

/-! ## Lemmas and claim theorems -/

/-! ## Helper lemmas -/

lemma write_body_go_eq : ∀ (fuel : Nat) (l : List Byte), l.length ≤ fuel → write_body_go fuel l = l := by
  intro fuel
  induction fuel with
  | zero =>
    intro l hl
    have : l = [] := List.eq_nil_of_length_eq_zero (Nat.le_zero.mp hl)
    simp [this, write_body_go]
  | succ n ih =>
    intro l hl
    by_cases hne : l = []
    · simp [hne, write_body_go]
    · have hpos : 0 < l.length := List.length_pos.mpr hne
      have : (l.drop 1024).length ≤ n := by
        rw [List.length_drop]
        omega
      simp [write_body_go, hne, ih _ this]

lemma write_body_eq (l : List Byte) : write_body l = l :=
  write_body_go_eq l.length l (Nat.le_refl _)

lemma reader_size_cons (c : List Byte) (rest : List (List Byte)) :
    reader_size (c :: rest) = c.length + reader_size rest + 1 := by
  simp [reader_size]
  omega

/-- Exhaustive description of every way `serve_from` can run, with the
intermediate values each branch passes along. -/
lemma serve_from_shape {S : Type} (router : Router S) (received : List Byte)
    (reader : List (List Byte)) :
    (∃ rd, serve_loop received reader = .closed rd ∧
      serve_from router received reader = ⟨.ok, [], none, none⟩) ∨
    (∃ e rd, serve_loop received reader = .parseError e rd ∧
      serve_from router received reader = ⟨.protocolError (.parserError e), [], none, none⟩) ∨
    (∃ hd received2 reader2, serve_loop received reader = .head hd received2 reader2 ∧
      serve_from router received reader = ⟨.protocolError .invalidUrl, [], none, none⟩) ∨
    (∃ hd received2 reader2, serve_loop received reader = .head hd received2 reader2 ∧
      serve_from router received reader = ⟨.protocolError .invalidMethod, [], none, none⟩) ∨
    (∃ hd received2 reader2 req, serve_loop received reader = .head hd received2 reader2 ∧
      req.headers = hd.headers ∧ req.content_length = content_length_of hd.headers ∧
      match_request router.route req router.state = none ∧
      serve_from router received reader = ⟨.panicked, [], none, some req⟩) ∨
    (∃ hd received2 reader2 req resp, serve_loop received reader = .head hd received2 reader2 ∧
      req.headers = hd.headers ∧ req.content_length = content_length_of hd.headers ∧
      match_request router.route req router.state = some resp ∧
      serve_from router received reader =
        ⟨.ok, status_line resp.status ++ [13, 10] ++ resp.body, some resp, some req⟩) := by
  rcases h1 : serve_loop received reader with rd | ⟨e, rd⟩ | ⟨hd, received2, reader2⟩
  · exact Or.inl ⟨rd, rfl, by simp [serve_from, h1]⟩
  · exact Or.inr (Or.inl ⟨e, rd, rfl, by simp [serve_from, h1]⟩)
  · rcases h2 : PathAndQuery.parse hd.path with _ | paq
    · exact Or.inr (Or.inr (Or.inl ⟨hd, received2, reader2, rfl, by simp [serve_from, h1, h2]⟩))
    · rcases h3 : Method.new hd.method with _ | m
      · exact Or.inr (Or.inr (Or.inr (Or.inl
          ⟨hd, received2, reader2, rfl, by simp [serve_from, h1, h2, h3]⟩)))
      · rcases h4 : match_request router.route
            ⟨m, paq.path, paq.query, hd.headers, content_length_of hd.headers,
              received2.drop hd.length, reader2⟩ router.state with _ | resp
        · refine Or.inr (Or.inr (Or.inr (Or.inr (Or.inl
            ⟨hd, received2, reader2, _, rfl, rfl, rfl, h4, ?_⟩))))
          simp [serve_from, h1, h2, h3, h4]
        · refine Or.inr (Or.inr (Or.inr (Or.inr (Or.inr
            ⟨hd, received2, reader2, _, resp, rfl, rfl, rfl, h4, ?_⟩))))
          simp [serve_from, h1, h2, h3, h4, write_body_eq]

lemma get_first_eq_find (hs : List Hdr) (name : List Byte) :
    get_first hs name = (hs.find? fun h => eq_ci h.1 name).map Prod.snd := by
  induction hs with
  | nil => rfl
  | cons h t ih =>
    obtain ⟨n, v⟩ := h
    by_cases hq : eq_ci n name
    · simp [get_first, hq, List.find?_cons]
    · simp [get_first, hq, List.find?_cons, ih]

/-! ## Evaluation helpers

Shallow reduction lemmas used to evaluate the model on concrete inputs
without forcing deep recursion over the 2048-byte buffer. -/

lemma PR.bind_err {α β : Type} (e : HErr) (f : α → List Byte → PR β) :
    PR.bind (.error e) f = .error e := rfl

lemma PR.bind_okNone {α β : Type} (f : α → List Byte → PR β) :
    PR.bind (.ok none) f = .ok none := rfl

lemma PR.bind_okSome {α β : Type} (a : α) (rest : List Byte) (f : α → List Byte → PR β) :
    PR.bind (.ok (some (a, rest))) f = f a rest := rfl

lemma dropWhile_replicate_pos {p : Byte → Bool} {a : Byte} (h : p a = true) (n : Nat) :
    (List.replicate n a).dropWhile p = [] := by
  induction n with
  | zero => rfl
  | succ k ih => simp [List.replicate_succ, List.dropWhile_cons, h, ih]

lemma read_chunk_cons_fst (cap : Nat) (c : List Byte) (rest : List (List Byte)) :
    (read_chunk cap (c :: rest)).1 = c.take cap := by
  simp only [read_chunk]
  split <;> rfl

lemma read_chunk_all {cap : Nat} {c : List Byte} (rest : List (List Byte))
    (hle : c.length ≤ cap) : read_chunk cap (c :: rest) = (c, rest) := by
  simp [read_chunk, List.drop_eq_nil_of_le hle, List.take_of_length_le hle]

lemma serve_loop_go_nil (fuel : Nat) (received : List Byte) :
    serve_loop_go fuel received [] = .closed [] := by
  cases fuel <;> simp [serve_loop_go, read_chunk]

/-- When the parse attempt after a nonempty read reports a malformed
head, the loop stops right there with that error, leaving the rest of
the transport unread. -/
lemma serve_loop_error_step {received : List Byte} {reader : List (List Byte)} {e : HErr}
    (hne : (read_chunk (BUF_SIZE - received.length) reader).1 ≠ [])
    (hperr : parse_request MAX_HEADERS
      (pad_buf (received ++ (read_chunk (BUF_SIZE - received.length) reader).1)) = .error e) :
    serve_loop received reader =
      .parseError e (read_chunk (BUF_SIZE - received.length) reader).2 := by
  have hr : reader ≠ [] := by
    intro hc
    rw [hc] at hne
    simp [read_chunk] at hne
  obtain ⟨c, rest, rfl⟩ : ∃ c rest, reader = c :: rest := by
    cases reader with
    | nil => exact absurd rfl hr
    | cons c rest => exact ⟨c, rest, rfl⟩
  unfold serve_loop
  rw [reader_size_cons]
  simp only [serve_loop_go]
  rw [if_neg hne, hperr]

/-- A single read after which the parse attempt is still incomplete:
the next read has no capacity or no data left and the loop closes. -/
lemma serve_loop_single_partial {c : List Byte}
    (hne : c ≠ []) (hle : c.length ≤ BUF_SIZE)
    (hp : parse_request MAX_HEADERS (pad_buf c) = .ok none) :
    serve_loop [] [c] = .closed [] := by
  unfold serve_loop
  have hsz : reader_size [c] = c.length + 1 := by simp [reader_size]
  rw [hsz]
  simp only [serve_loop_go, List.length_nil, Nat.sub_zero]
  rw [read_chunk_all [] (by simpa [BUF_SIZE] using hle)]
  simp only [List.nil_append]
  rw [if_neg hne, hp]
  exact serve_loop_go_nil _ _

/-- A single read that delivers a complete head in one chunk. -/
lemma serve_loop_single_complete {c : List Byte} {hd : Head}
    (hne : c ≠ []) (hle : c.length ≤ BUF_SIZE)
    (hp : parse_request MAX_HEADERS (pad_buf c) = .ok (some hd)) :
    serve_loop [] [c] = .head hd c [] := by
  unfold serve_loop
  have hsz : reader_size [c] = c.length + 1 := by simp [reader_size]
  rw [hsz]
  simp only [serve_loop_go, List.length_nil, Nat.sub_zero]
  rw [read_chunk_all [] (by simpa [BUF_SIZE] using hle)]
  simp only [List.nil_append]
  rw [if_neg hne, hp]

lemma built_new : BuiltRoute (Router.new).route := .new

lemma built_add_route {S : Type} {r : Router S} (hb : BuiltRoute r.route)
    (p : List Byte) (t : Route S) : BuiltRoute (r.add_route p t).route := .add p t hb

lemma built_get {S : Type} {r : Router S} (hb : BuiltRoute r.route)
    (p : List Byte) (h : S → RequestData → Response) : BuiltRoute (r.get p h).route :=
  .add p _ hb

lemma built_post {S : Type} {r : Router S} (hb : BuiltRoute r.route)
    (p : List Byte) (h : S → RequestData → Response) : BuiltRoute (r.post p h).route :=
  .add p _ hb

lemma built_with_state {S : Type} {r : Router S} (hb : BuiltRoute r.route)
    (s2 : S) : BuiltRoute (r.with_state s2).route := hb

/-- C1: for every Router built from `Router::new()` by any sequence of
route/per-method/`with_state` builder calls, `match_request` returns
`some` response for every request (the `NotFound` terminal matches
unconditionally), so the `unwrap` in `serve` (router.rs:204) never
fails and a response is always produced. -/
theorem claim1_not_found_terminal_total {S : Type} {r : Route S} (hb : BuiltRoute r) :
    (∀ (req : RequestData) (s : S), (match_request r req s).isSome = true) ∧
    (∀ (s : S) (reader : List (List Byte)),
      (Router.serve ⟨s, r⟩ reader).result ≠ .panicked) ∧
    (∀ (s : S) (reader : List (List Byte)) (req : RequestData),
      (Router.serve ⟨s, r⟩ reader).request = some req →
      (Router.serve ⟨s, r⟩ reader).response.isSome = true) := by
  have hm : ∀ (req : RequestData) (s : S), (match_request r req s).isSome = true := by
    intro req s
    induction hb with
    | new => rfl
    | @add p t r2 hr ih =>
      have hstep : match_request (.fallback (.path p t) r2) req s =
          (match match_request (.path p t) req s with
           | some resp => some resp
           | none => match_request r2 req s) := rfl
      rcases hpt : match_request (.path p t) req s with _ | resp
      · rw [hstep, hpt]
        exact ih
      · rw [hstep, hpt]
        rfl
  refine ⟨hm, ?_, ?_⟩
  · intro s reader
    rcases serve_from_shape ⟨s, r⟩ [] reader with
      ⟨rd, _, hs⟩ | ⟨e, rd, _, hs⟩ | ⟨hd, r2, d2, _, hs⟩ | ⟨hd, r2, d2, _, hs⟩ |
      ⟨hd, r2, d2, req, _, _, _, h4, hs⟩ | ⟨hd, r2, d2, req, resp, _, _, _, _, hs⟩ <;>
      rw [Router.serve, hs]
    all_goals simp
    · have := hm req s
      rw [h4] at this
      simp at this
  · intro s reader req hreq
    rcases serve_from_shape ⟨s, r⟩ [] reader with
      ⟨rd, _, hs⟩ | ⟨e, rd, _, hs⟩ | ⟨hd, r2, d2, _, hs⟩ | ⟨hd, r2, d2, _, hs⟩ |
      ⟨hd, r2, d2, req2, _, _, _, h4, hs⟩ | ⟨hd, r2, d2, req2, resp, _, _, _, _, hs⟩ <;>
      rw [Router.serve, hs] at hreq ⊢ <;> simp at hreq ⊢
    have := hm req2 s
    rw [h4] at this
    simp at this

theorem claim1_witness :
    (match_request c1_route c1_req ()).isSome = true ∧
    (Router.serve ⟨(), c1_route⟩ [[0]]).result ≠ .panicked :=
  ⟨(claim1_not_found_terminal_total (BuiltRoute.add _ _ BuiltRoute.new)).1 c1_req (),
   (claim1_not_found_terminal_total (BuiltRoute.add _ _ BuiltRoute.new)).2.1 () [[0]]⟩

/-- C4: `route(path, inner)` chains the new route in front of the
previous one (`Fallback(Path(path, inner), previous)`), so registering
`GET p → h1` and then `GET p → h2` makes a `GET p` request invoke `h2`
and never `h1` (the result does not depend on `h1`). -/
theorem claim4_last_registered_wins {S : Type} (r0 : Router S) (p : List Byte)
    (h1 h2 : S → RequestData → Response) (req : RequestData) (s : S)
    (hp : req.path = p) (hm : req.method = .GET) :
    match_request ((r0.get p h1).get p h2).route req s = some (h2 s req) := by
  simp [Router.get, Router.add_route, match_request, hp, hm]

theorem claim4_witness :
    c4_req.path = strBytes "/a" ∧ c4_req.method = .GET ∧
    match_request ((Router.new.get (strBytes "/a") c4_h1).get (strBytes "/a") c4_h2).route
      c4_req () = some (c4_h2 () c4_req) :=
  ⟨rfl, rfl, claim4_last_registered_wins Router.new (strBytes "/a") c4_h1 c4_h2 c4_req () rfl rfl⟩

/-- C5: whenever `serve` returns a protocol error (malformed head,
invalid URL or invalid method), no bytes at all have been written to
the transport writer. -/
theorem claim5_protocol_error_writes_nothing {S : Type} (router : Router S)
    (reader : List (List Byte)) (e : ProtocolError)
    (h : (router.serve reader).result = .protocolError e) :
    (router.serve reader).written = [] := by
  rcases serve_from_shape router [] reader with
    ⟨rd, _, hs⟩ | ⟨e2, rd, _, hs⟩ | ⟨hd, r2, d2, _, hs⟩ | ⟨hd, r2, d2, _, hs⟩ |
    ⟨hd, r2, d2, req, _, _, _, _, hs⟩ | ⟨hd, r2, d2, req, resp, _, _, _, _, hs⟩ <;>
    rw [Router.serve, hs] at h ⊢ <;> simp_all

theorem claim5_witness :
    (Router.new.serve [[0]]).result = .protocolError (.parserError .token) ∧
    (Router.new.serve [[0]]).written = [] :=
  ⟨rfl, claim5_protocol_error_writes_nothing Router.new [[0]] (.parserError .token) rfl⟩

/-- C7: for every dispatched response, the bytes written before the
body are exactly the status line `HTTP/1.1 <code> CRLF` followed by a
single blank CRLF, then the body bytes — no other head lines. -/
theorem claim7_response_head_exact {S : Type} (router : Router S)
    (reader : List (List Byte)) (resp : Response)
    (h : (router.serve reader).response = some resp) :
    (router.serve reader).written = status_line resp.status ++ [13, 10] ++ resp.body := by
  rcases serve_from_shape router [] reader with
    ⟨rd, _, hs⟩ | ⟨e2, rd, _, hs⟩ | ⟨hd, r2, d2, _, hs⟩ | ⟨hd, r2, d2, _, hs⟩ |
    ⟨hd, r2, d2, req, _, _, _, _, hs⟩ | ⟨hd, r2, d2, req, resp2, _, _, _, _, hs⟩ <;>
    rw [Router.serve, hs] at h ⊢ <;> simp_all

theorem claim7_witness :
    (Router.new.serve [strBytes "GET / HTTP/1.1\r\n\r\n"]).response = some ⟨404, []⟩ ∧
    (Router.new.serve [strBytes "GET / HTTP/1.1\r\n\r\n"]).written =
      status_line 404 ++ [13, 10] ++ [] :=
  ⟨rfl, claim7_response_head_exact Router.new [strBytes "GET / HTTP/1.1\r\n\r\n"] ⟨404, []⟩ rfl⟩

/-- C8: the content length bounding the body is the first
`Content-Length` header (case-insensitive name match, wire order)
parsed as a non-negative integer, defaulting to 0 — with no error —
when the header is absent or unparsable. -/
theorem claim8_content_length_first_or_zero {S : Type} (router : Router S)
    (reader : List (List Byte)) (req : RequestData)
    (h : (router.serve reader).request = some req) :
    req.content_length =
      (((req.headers.find? fun hd => eq_ci hd.1 (strBytes "Content-Length")).map
        Prod.snd).bind parse_usize).getD 0 := by
  have hcl : req.content_length = content_length_of req.headers := by
    rcases serve_from_shape router [] reader with
      ⟨rd, _, hs⟩ | ⟨e2, rd, _, hs⟩ | ⟨hd, r2, d2, _, hs⟩ | ⟨hd, r2, d2, _, hs⟩ |
      ⟨hd, r2, d2, req2, _, hh, hc, _, hs⟩ | ⟨hd, r2, d2, req2, resp, _, hh, hc, _, hs⟩ <;>
      rw [Router.serve, hs] at h <;> simp_all
  rw [hcl, content_length_of, get_first_eq_find]

lemma c8_parse (rest : List Byte) :
    parse_request MAX_HEADERS (c8_bytes ++ rest) =
      .ok (some ⟨strBytes "GET", strBytes "/", [c8_hdr],
        (c8_bytes ++ rest).length - rest.length⟩) := by
  have e1 : skip_empty_lines (c8_bytes ++ rest) = .ok (some ((), c8_bytes ++ rest)) := rfl
  have e2 : parse_token is_token (c8_bytes ++ rest) =
      .ok (some (strBytes "GET", strBytes "/ HTTP/1.1\r\nContent-Length: 5\r\n\r\n" ++ rest)) := rfl
  have e3 : parse_token is_uri (strBytes "/ HTTP/1.1\r\nContent-Length: 5\r\n\r\n" ++ rest) =
      .ok (some (strBytes "/", strBytes "HTTP/1.1\r\nContent-Length: 5\r\n\r\n" ++ rest)) := rfl
  have e4 : parse_version (strBytes "HTTP/1.1\r\nContent-Length: 5\r\n\r\n" ++ rest) =
      .ok (some ((), strBytes "\r\nContent-Length: 5\r\n\r\n" ++ rest)) := rfl
  have e5 : parse_newline (strBytes "\r\nContent-Length: 5\r\n\r\n" ++ rest) =
      .ok (some ((), strBytes "Content-Length: 5\r\n\r\n" ++ rest)) := rfl
  have e6 : parse_headers MAX_HEADERS (strBytes "Content-Length: 5\r\n\r\n" ++ rest) =
      .ok (some ([c8_hdr], rest)) := rfl
  simp only [parse_request, e1, e2, e3, e4, e5, e6, PR.bind_okSome]

lemma c8_head_parse : parse_request MAX_HEADERS (pad_buf c8_bytes) =
    .ok (some ⟨strBytes "GET", strBytes "/", [c8_hdr], 37⟩) := by
  have hpad : pad_buf c8_bytes =
      c8_bytes ++ List.replicate (BUF_SIZE - c8_bytes.length) 0 := rfl
  have hlen : c8_bytes.length = 37 := rfl
  rw [hpad, c8_parse]
  have harith : (c8_bytes ++ List.replicate (BUF_SIZE - c8_bytes.length) 0).length -
      (List.replicate (BUF_SIZE - c8_bytes.length) 0).length = 37 := by
    simp [List.length_append, hlen]
  rw [harith]

lemma c8_serve :
    Router.new.serve [c8_bytes] =
      ⟨.ok, status_line 404 ++ [13, 10] ++ [], some not_found_response, some c8_req⟩ := by
  have hlen : c8_bytes.length = 37 := rfl
  have h1 : serve_loop [] [c8_bytes] =
      .head ⟨strBytes "GET", strBytes "/", [c8_hdr], 37⟩ c8_bytes [] :=
    serve_loop_single_complete (by simp [← List.length_pos, hlen])
      (by rw [hlen]; norm_num [BUF_SIZE]) c8_head_parse
  unfold Router.serve serve_from
  rw [h1]
  rfl

theorem claim8_witness :
    (Router.new.serve [c8_bytes]).request = some c8_req ∧
    c8_req.content_length =
      (((c8_req.headers.find? fun hd => eq_ci hd.1 (strBytes "Content-Length")).map
        Prod.snd).bind parse_usize).getD 0 :=
  ⟨by rw [c8_serve],
   claim8_content_length_first_or_zero Router.new [c8_bytes] c8_req (by rw [c8_serve])⟩

/-- C9: when the parse attempt over the accumulated bytes reports a
malformed head, the loop fails on that very iteration with the parse
error: the remaining transport chunks are exactly the ones not yet
read (no further reads), serve returns the protocol error and writes
nothing. -/
theorem claim9_malformed_fails_immediately {S : Type} (router : Router S)
    (received : List Byte) (reader : List (List Byte)) (e : HErr)
    (hne : (read_chunk (BUF_SIZE - received.length) reader).1 ≠ [])
    (hperr : parse_request MAX_HEADERS
      (pad_buf (received ++ (read_chunk (BUF_SIZE - received.length) reader).1)) = .error e) :
    serve_loop received reader = .parseError e (read_chunk (BUF_SIZE - received.length) reader).2 ∧
    (serve_from router received reader).result = .protocolError (.parserError e) ∧
    (serve_from router received reader).written = [] := by
  have h1 := serve_loop_error_step hne hperr
  exact ⟨h1, by simp [serve_from, h1], by simp [serve_from, h1]⟩

theorem claim9_witness :
    (read_chunk (BUF_SIZE - ([] : List Byte).length) [[0], [53]]).1 ≠ [] ∧
    parse_request MAX_HEADERS
      (pad_buf ([] ++ (read_chunk (BUF_SIZE - ([] : List Byte).length) [[0], [53]]).1)) =
        .error .token ∧
    serve_loop [] [[0], [53]] =
      .parseError .token (read_chunk (BUF_SIZE - ([] : List Byte).length) [[0], [53]]).2 :=
  ⟨by decide, rfl,
   (claim9_malformed_fails_immediately Router.new [] [[0], [53]] .token (by decide) rfl).1⟩

lemma valid_head_parse (rest : List Byte) :
    parse_request MAX_HEADERS (valid_head_bytes ++ rest) =
      .ok (some ⟨strBytes "GET", strBytes "/", [],
        (valid_head_bytes ++ rest).length - rest.length⟩) := by
  have e1 : skip_empty_lines (valid_head_bytes ++ rest) =
      .ok (some ((), valid_head_bytes ++ rest)) := rfl
  have e2 : parse_token is_token (valid_head_bytes ++ rest) =
      .ok (some (strBytes "GET", strBytes "/ HTTP/1.1\r\n\r\n" ++ rest)) := rfl
  have e3 : parse_token is_uri (strBytes "/ HTTP/1.1\r\n\r\n" ++ rest) =
      .ok (some (strBytes "/", strBytes "HTTP/1.1\r\n\r\n" ++ rest)) := rfl
  have e4 : parse_version (strBytes "HTTP/1.1\r\n\r\n" ++ rest) =
      .ok (some ((), strBytes "\r\n\r\n" ++ rest)) := rfl
  have e5 : parse_newline (strBytes "\r\n\r\n" ++ rest) =
      .ok (some ((), strBytes "\r\n" ++ rest)) := rfl
  have e6 : parse_headers MAX_HEADERS (strBytes "\r\n" ++ rest) = .ok (some ([], rest)) := rfl
  simp only [parse_request, e1, e2, e3, e4, e5, e6, PR.bind_okSome]

lemma valid_head_loop :
    serve_loop [] [valid_head_bytes] =
      .head ⟨strBytes "GET", strBytes "/", [], 18⟩ valid_head_bytes [] := by
  have hlen : valid_head_bytes.length = 18 := rfl
  have hp : parse_request MAX_HEADERS (pad_buf valid_head_bytes) =
      .ok (some ⟨strBytes "GET", strBytes "/", [], 18⟩) := by
    have hpad : pad_buf valid_head_bytes =
        valid_head_bytes ++ List.replicate (BUF_SIZE - valid_head_bytes.length) 0 := rfl
    rw [hpad, valid_head_parse]
    have harith : (valid_head_bytes ++ List.replicate (BUF_SIZE - valid_head_bytes.length) 0).length -
        (List.replicate (BUF_SIZE - valid_head_bytes.length) 0).length = 18 := by
      simp [List.length_append, hlen]
    rw [harith]
  exact serve_loop_single_complete (by simp [← List.length_pos, hlen])
    (by rw [hlen]; norm_num [BUF_SIZE]) hp

/-- C2: the partial-read-equivalence property fails on the code:
router.rs:160 parses the WHOLE 2048-byte buffer rather than just the
bytes received so far, so a valid head split into two reads hits the
zero-initialised padding and dies with a parse error, while the same
bytes in one contiguous read parse fine (method `GET`, path `/`, no
headers, body offset 18). -/
theorem claim2_split_reads_diverge :
    serve_loop [] [valid_head_bytes] =
      .head ⟨strBytes "GET", strBytes "/", [], 18⟩ valid_head_bytes [] ∧
    (Router.new.serve [valid_head_bytes]).result = .ok ∧
    serve_loop [] [strBytes "GET ", strBytes "/ HTTP/1.1\r\n\r\n"] =
      .parseError .token [strBytes "/ HTTP/1.1\r\n\r\n"] ∧
    (Router.new.serve [strBytes "GET ", strBytes "/ HTTP/1.1\r\n\r\n"]).result =
      .protocolError (.parserError .token) := by
  refine ⟨valid_head_loop, ?_, rfl, rfl⟩
  unfold Router.serve serve_from
  rw [valid_head_loop]
  rfl

lemma oversized_parse (n : Nat) :
    parse_request MAX_HEADERS (strBytes "GET /" ++ List.replicate n 97) = .ok none := by
  have e1 : skip_empty_lines (strBytes "GET /" ++ List.replicate n 97) =
      .ok (some ((), strBytes "GET /" ++ List.replicate n 97)) := rfl
  have e2 : parse_token is_token (strBytes "GET /" ++ List.replicate n 97) =
      .ok (some (strBytes "GET", 47 :: List.replicate n 97)) := rfl
  have e3 : parse_token is_uri (47 :: List.replicate n 97) = .ok none := by
    have hdrop : (47 :: List.replicate n 97).dropWhile (tok_byte is_uri) = [] := by
      have h47 : tok_byte is_uri 47 = true := rfl
      simp only [List.dropWhile_cons, h47, if_true]
      exact dropWhile_replicate_pos rfl n
    simp only [parse_token, hdrop]
  simp only [parse_request, e1, e2, e3, PR.bind_okSome, PR.bind_okNone]

lemma oversized_len : oversized_head_bytes.length = BUF_SIZE := by
  show (strBytes "GET /" ++ List.replicate 2043 97).length = BUF_SIZE
  rw [List.length_append, List.length_replicate]
  rfl

lemma oversized_pad : pad_buf oversized_head_bytes =
    strBytes "GET /" ++ List.replicate 2043 97 := by
  show oversized_head_bytes ++ List.replicate (BUF_SIZE - oversized_head_bytes.length) 0 = _
  rw [oversized_len, Nat.sub_self]
  show oversized_head_bytes ++ [] = _
  rw [List.append_nil]
  rfl

/-- C3: the claimed "head too large" failure does not exist in the
code: when the 2048-byte buffer fills with an incomplete head, the
parse stays incomplete, the next read has an empty destination slice
and returns 0, and `serve` returns `Ok(())` (router.rs:150-153) with
nothing written — a clean close instead of the distinct protocol
error (the TODO at router.rs:145). -/
theorem claim3_buffer_full_returns_ok :
    (Router.new.serve [oversized_head_bytes]).result = .ok ∧
    (Router.new.serve [oversized_head_bytes]).written = [] ∧
    serve_loop [] [oversized_head_bytes] = .closed [] := by
  have hne : oversized_head_bytes ≠ [] := by
    rw [← List.length_pos, oversized_len]
    norm_num [BUF_SIZE]
  have hp : parse_request MAX_HEADERS (pad_buf oversized_head_bytes) = .ok none := by
    rw [oversized_pad]
    exact oversized_parse 2043
  have h1 : serve_loop [] [oversized_head_bytes] = .closed [] :=
    serve_loop_single_partial hne (le_of_eq oversized_len) hp
  exact ⟨by simp [Router.serve, serve_from, h1], by simp [Router.serve, serve_from, h1], h1⟩

lemma repeat_header_add (a b : Nat) :
    repeat_header (a + b) = repeat_header a ++ repeat_header b := by
  induction a with
  | zero => simp [repeat_header]
  | succ k ih =>
    have h1 : k + 1 + b = (k + b) + 1 := by omega
    rw [h1]
    show c6_header_line ++ repeat_header (k + b) = _
    rw [ih]
    show _ = (c6_header_line ++ repeat_header k) ++ repeat_header b
    rw [List.append_assoc]

lemma repeat_header_length (n : Nat) : (repeat_header n).length = 6 * n := by
  induction n with
  | zero => rfl
  | succ k ih =>
    show (c6_header_line ++ repeat_header k).length = 6 * (k + 1)
    rw [List.length_append, ih]
    have : c6_header_line.length = 6 := rfl
    rw [this]
    ring

lemma c6_request_length (n : Nat) : (c6_request_bytes n).length = 18 + 6 * n := by
  have h16 : (strBytes "GET / HTTP/1.1\r\n").length = 16 := rfl
  simp [c6_request_bytes, List.length_append, repeat_header_length, h16]
  omega

/-- One more header line than the remaining slots always overflows,
whatever follows it. -/
lemma parse_headers_overflow (rest : List Byte) :
    ∀ slots, parse_headers slots (repeat_header (slots + 1) ++ rest) = .error .tooManyHeaders := by
  intro slots
  induction slots with
  | zero => rfl
  | succ k ih =>
    have hshape : repeat_header (k + 1 + 1) ++ rest =
        c6_header_line ++ (repeat_header (k + 1) ++ rest) := by
      show (c6_header_line ++ repeat_header (k + 1)) ++ rest = _
      rw [List.append_assoc]
    rw [hshape]
    have estep : parse_headers (k + 1) (c6_header_line ++ (repeat_header (k + 1) ++ rest)) =
        PR.bind (parse_header_line (c6_header_line ++ (repeat_header (k + 1) ++ rest)))
          (fun h rest1 => PR.bind (parse_headers k rest1)
            fun hs rest2 => .ok (some (h :: hs, rest2))) := rfl
    have ehdr : parse_header_line (c6_header_line ++ (repeat_header (k + 1) ++ rest)) =
        .ok (some ((strBytes "A", strBytes "b"), repeat_header (k + 1) ++ rest)) := rfl
    rw [estep, ehdr, PR.bind_okSome, ih, PR.bind_err]

/-- A parse error in the header section propagates through the
request-line stages of `parse_request`. -/
lemma c6_parse_error {rest : List Byte} {e : HErr}
    (h : parse_headers MAX_HEADERS rest = .error e) :
    parse_request MAX_HEADERS (strBytes "GET / HTTP/1.1\r\n" ++ rest) = .error e := by
  have e1 : skip_empty_lines (strBytes "GET / HTTP/1.1\r\n" ++ rest) =
      .ok (some ((), strBytes "GET / HTTP/1.1\r\n" ++ rest)) := rfl
  have e2 : parse_token is_token (strBytes "GET / HTTP/1.1\r\n" ++ rest) =
      .ok (some (strBytes "GET", strBytes "/ HTTP/1.1\r\n" ++ rest)) := rfl
  have e3 : parse_token is_uri (strBytes "/ HTTP/1.1\r\n" ++ rest) =
      .ok (some (strBytes "/", strBytes "HTTP/1.1\r\n" ++ rest)) := rfl
  have e4 : parse_version (strBytes "HTTP/1.1\r\n" ++ rest) =
      .ok (some ((), strBytes "\r\n" ++ rest)) := rfl
  have e5 : parse_newline (strBytes "\r\n" ++ rest) = .ok (some ((), rest)) := rfl
  simp only [parse_request, e1, e2, e3, e4, e5, h, PR.bind_okSome, PR.bind_err]

lemma c6_take_decomp (n : Nat) (hn : MAX_HEADERS < n) :
    ∃ tail, pad_buf ((c6_request_bytes n).take BUF_SIZE) =
      strBytes "GET / HTTP/1.1\r\n" ++ (repeat_header (MAX_HEADERS + 1) ++ tail) := by
  obtain ⟨k, rfl⟩ : ∃ k, n = (MAX_HEADERS + 1) + k := ⟨n - (MAX_HEADERS + 1), by omega⟩
  have hsplit : c6_request_bytes ((MAX_HEADERS + 1) + k) =
      (strBytes "GET / HTTP/1.1\r\n" ++ repeat_header (MAX_HEADERS + 1)) ++
        (repeat_header k ++ [13, 10]) := by
    unfold c6_request_bytes
    rw [repeat_header_add]
    simp [List.append_assoc]
  have hAlen : (strBytes "GET / HTTP/1.1\r\n" ++ repeat_header (MAX_HEADERS + 1)).length = 622 := by
    have h16 : (strBytes "GET / HTTP/1.1\r\n").length = 16 := rfl
    rw [List.length_append, h16, repeat_header_length]
    norm_num [MAX_HEADERS]
  have htake : (c6_request_bytes ((MAX_HEADERS + 1) + k)).take BUF_SIZE =
      (strBytes "GET / HTTP/1.1\r\n" ++ repeat_header (MAX_HEADERS + 1)) ++
        (repeat_header k ++ [13, 10]).take (BUF_SIZE - 622) := by
    rw [hsplit, List.take_append_eq_append_take, hAlen,
      List.take_of_length_le (by rw [hAlen]; norm_num [BUF_SIZE])]
  refine ⟨(repeat_header k ++ [13, 10]).take (BUF_SIZE - 622) ++
    List.replicate (BUF_SIZE - ((c6_request_bytes ((MAX_HEADERS + 1) + k)).take BUF_SIZE).length) 0, ?_⟩
  rw [pad_buf, htake]
  simp [List.append_assoc]

lemma big_repeat_add (a b : Nat) :
    big_repeat (a + b) = big_repeat a ++ big_repeat b := by
  induction a with
  | zero => simp [big_repeat]
  | succ k ih =>
    have h1 : k + 1 + b = (k + b) + 1 := by omega
    rw [h1]
    show c6_big_header_line ++ big_repeat (k + b) = _
    rw [ih]
    show _ = (c6_big_header_line ++ big_repeat k) ++ big_repeat b
    rw [List.append_assoc]

lemma big_repeat_length (n : Nat) : (big_repeat n).length = 30 * n := by
  induction n with
  | zero => rfl
  | succ k ih =>
    show (c6_big_header_line ++ big_repeat k).length = 30 * (k + 1)
    rw [List.length_append, ih]
    have h30 : c6_big_header_line.length = 30 := rfl
    rw [h30]
    ring

lemma c6_big_request_length : c6_big_request.length = 3048 := by
  have h16 : (strBytes "GET / HTTP/1.1\r\n").length = 16 := rfl
  show ((strBytes "GET / HTTP/1.1\r\n" ++ big_repeat 101) ++ [13, 10]).length = 3048
  rw [List.length_append, List.length_append, h16, big_repeat_length]
  norm_num

/-- With fewer full big header lines than remaining slots and a bare
name fragment after them, the header parse runs out of input: it never
reaches an overflowing header, so the result is incomplete. -/
lemma parse_headers_partial_repeat :
    ∀ (k slots : Nat), k < slots →
      parse_headers slots (big_repeat k ++ c6_partial_tail) = .ok none := by
  intro k
  induction k with
  | zero =>
    intro slots hk
    obtain ⟨s, rfl⟩ : ∃ s, slots = s + 1 := ⟨slots - 1, by omega⟩
    rw [show big_repeat 0 ++ c6_partial_tail = c6_partial_tail from rfl]
    have estep : parse_headers (s + 1) c6_partial_tail =
        PR.bind (parse_header_line c6_partial_tail) (fun h rest1 =>
          PR.bind (parse_headers s rest1) fun hs rest2 => .ok (some (h :: hs, rest2))) := rfl
    rw [estep, show parse_header_line c6_partial_tail = (.ok none : PR Hdr) from rfl,
      PR.bind_okNone]
  | succ k ih =>
    intro slots hk
    obtain ⟨s, rfl⟩ : ∃ s, slots = s + 1 := ⟨slots - 1, by omega⟩
    have hshape : big_repeat (k + 1) ++ c6_partial_tail =
        c6_big_header_line ++ (big_repeat k ++ c6_partial_tail) := by
      show (c6_big_header_line ++ big_repeat k) ++ c6_partial_tail = _
      rw [List.append_assoc]
    rw [hshape]
    have estep : parse_headers (s + 1)
        (c6_big_header_line ++ (big_repeat k ++ c6_partial_tail)) =
        PR.bind (parse_header_line (c6_big_header_line ++ (big_repeat k ++ c6_partial_tail)))
          (fun h rest1 => PR.bind (parse_headers s rest1)
            fun hs rest2 => .ok (some (h :: hs, rest2))) := rfl
    have ehdr : parse_header_line (c6_big_header_line ++ (big_repeat k ++ c6_partial_tail)) =
        .ok (some ((strBytes "AAAAAAAAAAAAAAAAAAAAAAAAA", strBytes "b"),
          big_repeat k ++ c6_partial_tail)) := rfl
    rw [estep, ehdr, PR.bind_okSome, ih s (by omega), PR.bind_okNone]

/-- An incomplete header section propagates through the request-line
stages of `parse_request` as an incomplete head. -/
lemma c6_parse_partial {rest : List Byte}
    (h : parse_headers MAX_HEADERS rest = .ok none) :
    parse_request MAX_HEADERS (strBytes "GET / HTTP/1.1\r\n" ++ rest) = .ok none := by
  have e1 : skip_empty_lines (strBytes "GET / HTTP/1.1\r\n" ++ rest) =
      .ok (some ((), strBytes "GET / HTTP/1.1\r\n" ++ rest)) := rfl
  have e2 : parse_token is_token (strBytes "GET / HTTP/1.1\r\n" ++ rest) =
      .ok (some (strBytes "GET", strBytes "/ HTTP/1.1\r\n" ++ rest)) := rfl
  have e3 : parse_token is_uri (strBytes "/ HTTP/1.1\r\n" ++ rest) =
      .ok (some (strBytes "/", strBytes "HTTP/1.1\r\n" ++ rest)) := rfl
  have e4 : parse_version (strBytes "HTTP/1.1\r\n" ++ rest) =
      .ok (some ((), strBytes "\r\n" ++ rest)) := rfl
  have e5 : parse_newline (strBytes "\r\n" ++ rest) = .ok (some ((), rest)) := rfl
  simp only [parse_request, e1, e2, e3, e4, e5, h, PR.bind_okSome, PR.bind_okNone]

/-- The 2048 bytes of the big request that fit in the buffer: the
request line, 67 full header lines, and a 22-byte name fragment. -/
lemma c6_big_take : c6_big_request.take BUF_SIZE =
    strBytes "GET / HTTP/1.1\r\n" ++ (big_repeat 67 ++ c6_partial_tail) := by
  have hsplit : c6_big_request =
      (strBytes "GET / HTTP/1.1\r\n" ++ big_repeat 67) ++ (big_repeat 34 ++ [13, 10]) := by
    show (strBytes "GET / HTTP/1.1\r\n" ++ big_repeat 101) ++ [13, 10] = _
    rw [show (101 : Nat) = 67 + 34 from rfl, big_repeat_add]
    simp [List.append_assoc]
  have hAlen : (strBytes "GET / HTTP/1.1\r\n" ++ big_repeat 67).length = 2026 := by
    have h16 : (strBytes "GET / HTTP/1.1\r\n").length = 16 := rfl
    rw [List.length_append, h16, big_repeat_length]
  have htail : (big_repeat 34 ++ [13, 10]).take 22 = c6_partial_tail := by
    have hshape : big_repeat 34 ++ [13, 10] =
        c6_big_header_line ++ (big_repeat 33 ++ [13, 10]) := by
      show (c6_big_header_line ++ big_repeat 33) ++ [13, 10] = _
      rw [List.append_assoc]
    have h22 : (22 : Nat) ≤ c6_big_header_line.length := by
      have h30 : c6_big_header_line.length = 30 := rfl
      rw [h30]
      norm_num
    rw [hshape, List.take_append_of_le_length h22]
    rfl
  rw [hsplit, List.take_append_eq_append_take, hAlen,
    List.take_of_length_le (by rw [hAlen]; norm_num [BUF_SIZE])]
  have h22b : BUF_SIZE - 2026 = 22 := by norm_num [BUF_SIZE]
  rw [h22b, htail, List.append_assoc]

lemma read_chunk_fst_zero (reader : List (List Byte)) : (read_chunk 0 reader).1 = [] := by
  cases reader with
  | nil => rfl
  | cons c rest =>
    rw [read_chunk_cons_fst]
    exact List.take_zero c

/-- With a full buffer there is no capacity left: the next read returns
zero bytes and the loop closes, whatever fuel remains. -/
lemma serve_loop_go_stop (fuel : Nat) (received : List Byte) (reader : List (List Byte))
    (hcap : BUF_SIZE - received.length = 0) :
    serve_loop_go fuel received reader = .closed (read_chunk 0 reader).2 := by
  cases fuel with
  | zero =>
    simp only [serve_loop_go]
    rw [hcap]
  | succ k =>
    simp only [serve_loop_go]
    rw [hcap, if_pos (read_chunk_fst_zero reader)]

/-- A single chunk larger than the buffer whose buffered 2048-byte
prefix still parses as incomplete: the first read fills the buffer, the
second read has no capacity and returns 0, and the loop closes with the
overflow bytes still in the transport. -/
lemma serve_loop_single_overflow {c : List Byte}
    (hgt : BUF_SIZE < c.length)
    (hp : parse_request MAX_HEADERS (pad_buf (c.take BUF_SIZE)) = .ok none) :
    serve_loop [] [c] = .closed [c.drop BUF_SIZE] := by
  unfold serve_loop
  have hsz : reader_size [c] = c.length + 1 := by simp [reader_size]
  rw [hsz]
  simp only [serve_loop_go, List.length_nil, Nat.sub_zero]
  have hdropne : c.drop BUF_SIZE ≠ [] := by
    rw [Ne, List.drop_eq_nil_iff]
    omega
  have hrc : read_chunk BUF_SIZE [c] = (c.take BUF_SIZE, [c.drop BUF_SIZE]) := by
    simp [read_chunk, hdropne]
  rw [hrc]
  have htakene : c.take BUF_SIZE ≠ [] := by
    rw [Ne, List.take_eq_nil_iff]
    push_neg
    refine ⟨by norm_num [BUF_SIZE], ?_⟩
    intro hc
    rw [hc] at hgt
    simp at hgt
  rw [if_neg htakene]
  simp only [List.nil_append]
  rw [hp]
  show serve_loop_go c.length (c.take BUF_SIZE) [c.drop BUF_SIZE] = _
  have hcap : BUF_SIZE - (c.take BUF_SIZE).length = 0 := by
    rw [List.length_take]
    omega
  rw [serve_loop_go_stop _ _ _ hcap]
  have hrc0 : read_chunk 0 [c.drop BUF_SIZE] = ([], [c.drop BUF_SIZE]) := by
    simp [read_chunk, List.drop_zero, hdropne]
  rw [hrc0]

lemma bind_eq_okSome {α β : Type} {x : PR α} {f : α → List Byte → PR β} {y : β × List Byte}
    (h : PR.bind x f = .ok (some y)) :
    ∃ a r, x = .ok (some (a, r)) ∧ f a r = .ok (some y) := by
  cases x with
  | error e => simp [PR.bind] at h
  | ok o =>
    cases o with
    | none => simp [PR.bind] at h
    | some p =>
      obtain ⟨a, r⟩ := p
      exact ⟨a, r, rfl, h⟩

lemma parse_headers_count :
    ∀ (slots : Nat) (input : List Byte) (hs : List Hdr) (rest : List Byte),
      parse_headers slots input = .ok (some (hs, rest)) → hs.length ≤ slots := by
  intro slots
  induction slots with
  | zero =>
    intro input hs rest h
    rw [parse_headers.eq_def] at h
    split at h <;> simp_all
  | succ k ih =>
    intro input hs rest h
    rw [parse_headers.eq_def] at h
    split at h
    · exact absurd h (by simp)
    · exact absurd h (by simp)
    · simp only [Except.ok.injEq, Option.some.injEq, Prod.mk.injEq] at h
      obtain ⟨h1, -⟩ := h
      simp [← h1]
    · exact absurd h (by simp)
    · simp only [Except.ok.injEq, Option.some.injEq, Prod.mk.injEq] at h
      obtain ⟨h1, -⟩ := h
      simp [← h1]
    · obtain ⟨hd1, r1, hx1, h⟩ := bind_eq_okSome h
      obtain ⟨hs1, r2, hx2, h⟩ := bind_eq_okSome h
      simp only [Except.ok.injEq, Option.some.injEq, Prod.mk.injEq] at h
      obtain ⟨hhs, -⟩ := h
      rw [← hhs]
      simp only [List.length_cons]
      exact Nat.succ_le_succ (ih _ _ _ hx2)

lemma parse_request_headers_count {max_headers : Nat} {input : List Byte} {hd : Head}
    (h : parse_request max_headers input = .ok (some hd)) :
    hd.headers.length ≤ max_headers := by
  rw [parse_request.eq_def] at h
  split at h
  · simp_all
  · simp_all
  · rename_i m p hs rest heq
    obtain ⟨a1, r1, hx1, heq⟩ := bind_eq_okSome heq
    obtain ⟨a2, r2, hx2, heq⟩ := bind_eq_okSome heq
    obtain ⟨a3, r3, hx3, heq⟩ := bind_eq_okSome heq
    obtain ⟨a4, r4, hx4, heq⟩ := bind_eq_okSome heq
    obtain ⟨a5, r5, hx5, heq⟩ := bind_eq_okSome heq
    obtain ⟨a6, r6, hx6, heq⟩ := bind_eq_okSome heq
    simp only [Except.ok.injEq, Option.some.injEq, Prod.mk.injEq] at heq h
    obtain ⟨⟨hm, hp, hhs⟩, -⟩ := heq
    rw [← h]
    simp only []
    rw [← hhs]
    exact parse_headers_count _ _ _ _ hx6

lemma serve_loop_go_head :
    ∀ (fuel : Nat) {received : List Byte} {reader : List (List Byte)} {hd : Head}
      {received2 : List Byte} {reader2 : List (List Byte)},
      serve_loop_go fuel received reader = .head hd received2 reader2 →
      parse_request MAX_HEADERS (pad_buf received2) = .ok (some hd) := by
  intro fuel
  induction fuel with
  | zero =>
    intro received reader hd r2 d2 h
    simp [serve_loop_go] at h
  | succ k ih =>
    intro received reader hd r2 d2 h
    simp only [serve_loop_go] at h
    by_cases hd1 : (read_chunk (BUF_SIZE - received.length) reader).1 = []
    · rw [if_pos hd1] at h
      simp at h
    · rw [if_neg hd1] at h
      rcases hp : parse_request MAX_HEADERS
          (pad_buf (received ++ (read_chunk (BUF_SIZE - received.length) reader).1)) with e | o
      · rw [hp] at h
        simp at h
      · rcases o with _ | hd0
        · rw [hp] at h
          exact ih h
        · rw [hp] at h
          simp only [LoopRes.head.injEq] at h
          obtain ⟨hhd, hr2, -⟩ := h
          rw [← hr2, ← hhd]
          exact hp

lemma serve_loop_head {received : List Byte} {reader : List (List Byte)} {hd : Head}
    {received2 : List Byte} {reader2 : List (List Byte)}
    (h : serve_loop received reader = .head hd received2 reader2) :
    parse_request MAX_HEADERS (pad_buf received2) = .ok (some hd) :=
  serve_loop_go_head _ h

/-- C6 (amended): when the parse meets a 101st header line within the
buffered bytes — as it does for every n > 100 of the six-byte headers
of `c6_request_bytes`, whose 101st header always lies inside the
2048-byte buffer — serve terminates with a protocol error
(`TooManyHeaders` from httparse); and serve never dispatches a request
whose header table was silently truncated: every dispatched request
carries at most 100 headers.  (The original universal claim over every
request with more than 100 headers is refuted by the separate
counterexample: a >100-header head that overflows the buffer before a
101st header is reached closes cleanly instead, via the missing
buffer-full check of C3.) -/
theorem claim6_header_overflow_errors :
    (∀ {S : Type} (router : Router S) (n : Nat), MAX_HEADERS < n →
      (router.serve [c6_request_bytes n]).result =
        .protocolError (.parserError .tooManyHeaders)) ∧
    (∀ {S : Type} (router : Router S) (reader : List (List Byte)) (req : RequestData),
      (router.serve reader).request = some req → req.headers.length ≤ MAX_HEADERS) := by
  constructor
  · intro S router n hn
    obtain ⟨tail, hpad⟩ := c6_take_decomp n hn
    have hne : (read_chunk (BUF_SIZE - ([] : List Byte).length) [c6_request_bytes n]).1 ≠ [] := by
      rw [read_chunk_cons_fst]
      intro hc
      rcases List.take_eq_nil_iff.mp hc with h0 | h0
      · simp [BUF_SIZE] at h0
      · have := c6_request_length n
        rw [h0] at this
        simp at this
        omega
    have hperr : parse_request MAX_HEADERS
        (pad_buf ([] ++ (read_chunk (BUF_SIZE - ([] : List Byte).length) [c6_request_bytes n]).1)) =
          .error .tooManyHeaders := by
      rw [read_chunk_cons_fst]
      simp only [List.nil_append, List.length_nil, Nat.sub_zero]
      rw [hpad]
      exact c6_parse_error (parse_headers_overflow tail MAX_HEADERS)
    have h1 := serve_loop_error_step hne hperr
    simp [Router.serve, serve_from, h1]
  · intro S router reader req h
    rcases serve_from_shape router [] reader with
      ⟨rd, _, hs⟩ | ⟨e2, rd, _, hs⟩ | ⟨hd, r2, d2, _, hs⟩ | ⟨hd, r2, d2, _, hs⟩ |
      ⟨hd, r2, d2, req2, hloop, hh, hc, _, hs⟩ |
      ⟨hd, r2, d2, req2, resp, hloop, hh, hc, _, hs⟩ <;>
      rw [Router.serve, hs] at h <;> simp at h
    · have hcount := parse_request_headers_count (serve_loop_head hloop)
      rw [← h, hh]
      exact hcount
    · have hcount := parse_request_headers_count (serve_loop_head hloop)
      rw [← h, hh]
      exact hcount

theorem claim6_witness :
    MAX_HEADERS < 101 ∧
    (Router.new.serve [c6_request_bytes 101]).result =
      .protocolError (.parserError .tooManyHeaders) :=
  ⟨by decide, claim6_header_overflow_errors.1 Router.new 101 (by decide)⟩

/-- C6 counterexample: the claim as stated — every request with more
than 100 headers makes serve terminate with a protocol error — is
false.  `c6_big_request` carries 101 thirty-byte headers (a 3048-byte
head); only 67 full header lines fit in the 2048-byte buffer, the parse
stays incomplete without ever reaching a 101st header, the next read
has no capacity and returns 0, and serve returns `Ok(())` with nothing
written — no protocol error at all. -/
theorem claim6_counterexample :
    (Router.new.serve [c6_big_request]).result = .ok ∧
    (Router.new.serve [c6_big_request]).written = [] ∧
    (Router.new.serve [c6_big_request]).result ≠
      .protocolError (.parserError .tooManyHeaders) := by
  have hgt : BUF_SIZE < c6_big_request.length := by
    rw [c6_big_request_length]
    norm_num [BUF_SIZE]
  have hp : parse_request MAX_HEADERS (pad_buf (c6_big_request.take BUF_SIZE)) = .ok none := by
    have hlen2048 : (c6_big_request.take BUF_SIZE).length = BUF_SIZE := by
      rw [List.length_take, c6_big_request_length]
      norm_num [BUF_SIZE]
    have hpad : pad_buf (c6_big_request.take BUF_SIZE) = c6_big_request.take BUF_SIZE := by
      unfold pad_buf
      rw [hlen2048, Nat.sub_self]
      simp
    rw [hpad, c6_big_take]
    exact c6_parse_partial
      (parse_headers_partial_repeat 67 MAX_HEADERS (by norm_num [MAX_HEADERS]))
  have h1 : serve_loop [] [c6_big_request] = .closed [c6_big_request.drop BUF_SIZE] :=
    serve_loop_single_overflow hgt hp
  refine ⟨?_, ?_, ?_⟩ <;> simp [Router.serve, serve_from, h1]

/-- C10: whenever a transport read returns zero bytes before a complete
head has been parsed — whatever bytes earlier reads already delivered —
serve returns `Ok(())` (router.rs:150-153) and nothing has been written
to the transport. -/
theorem claim10_zero_read_clean_close {S : Type} (router : Router S)
    (received : List Byte) (rest : List (List Byte)) :
    serve_loop received ([] :: rest) = .closed rest ∧
    (serve_from router received ([] :: rest)).result = .ok ∧
    (serve_from router received ([] :: rest)).written = [] := by
  have h1 : serve_loop received ([] :: rest) = .closed rest := by
    unfold serve_loop
    rw [reader_size_cons]
    simp [serve_loop_go, read_chunk]
  exact ⟨h1, by simp [serve_from, h1], by simp [serve_from, h1]⟩

end LowProfile
